import Mathlib

/-!
Verification of the estuary database-manager layer (`dbmgr.go`).

The Go file defines, per entity, a fluent query type (`UsersQuery`,
`ContentsQuery`, `ObjectsQuery`, `ObjRefsQuery`, `DealsQuery`, ...) whose
filter methods narrow a row set and whose terminal methods (`Get`, `GetAll`,
`Count`, `Exists`, `Delete`, `ExpectDelete`, `DeleteUnreferenced`) execute a
single SQL statement.  We embed each table as a Lean list of rows, a chain of
conjunctive filters as a boolean predicate over rows, and each terminal
method as a function from the row set (plus the predicate accumulated by the
builder) to its Go return values.  A possible storage-engine failure of a
read statement is passed in as an `Option DBErr` argument, `none` meaning the
engine executed the statement successfully; the embedding of each terminal
method reproduces exactly what the Go code returns in either case.

The CID codec helpers (`bytesToCid`, `bytesToCids`, `cidToBytes`,
`cidsToBytes`) at the bottom of `dbmgr.go` are embedded directly; the go-cid
library functions they call (`gocid.Cast`, `Cid.Bytes`, `gocid.Undef`) are an
external dependency, modelled here from the spec's codec contract: a `Cid` is
its canonical byte encoding, the undefined sentinel is the empty encoding,
and `Cast` accepts exactly the well-formed encodings (CIDv0: 34 bytes
starting 0x12 0x20; CIDv1: a version-1 varint header followed by a codec
varint and a length-consistent multihash) and returns the input bytes.
-/

/-- Errors surfaced by the data layer: gorm's record-not-found, a malformed
identifier from the codec, or a pass-through storage-engine error. -/
inductive DBErr where
  | recordNotFound
  | malformedCid
  | engine (msg : String)
  deriving DecidableEq

/-- Sort order, from the `DBSortOrder` constants (`OrderDescending = 0`,
`OrderAscending = 1`). -/
inductive DBSortOrder where
  | descending
  | ascending
  deriving DecidableEq

/-- A content-address identifier, modelled from the spec as its canonical
byte encoding (go-cid stores exactly the binary encoding). -/
structure Cid where
  bytes : List Nat
  deriving DecidableEq

/-- The undefined-identifier sentinel `gocid.Undef`: the empty encoding. -/
def Cid.undef : Cid := ⟨[]⟩

/-- One step of unsigned-LEB128 varint decoding: returns the decoded value
and the remaining bytes, or `none` if the input ends mid-varint. -/
def readUvarintAux : List Nat → Nat → Nat → Option (Nat × List Nat)
  | [], _, _ => none
  | b :: rest, shift, acc =>
    if b < 128 then some (acc + b * 2 ^ shift, rest)
    else readUvarintAux rest (shift + 7) (acc + (b % 128) * 2 ^ shift)

/-- Decode an unsigned varint from the front of a byte list. -/
def readUvarint (bs : List Nat) : Option (Nat × List Nat) :=
  readUvarintAux bs 0 0

/-- Modelled from the spec: well-formedness check of `gocid.Cast` (external
go-cid dependency).  A CIDv0 is exactly 34 bytes beginning 0x12 0x20; a CIDv1
is a version varint equal to 1, a codec varint, a hash-code varint, a
digest-length varint, and exactly that many digest bytes, consuming the whole
input. -/
def castOk (data : List Nat) : Bool :=
  if 2 < data.length && data.take 2 == [18, 32] then data.length == 34
  else
    match readUvarint data with
    | some (1, r1) =>
      match readUvarint r1 with
      | some (_, r2) =>
        match readUvarint r2 with
        | some (_, r3) =>
          match readUvarint r3 with
          | some (dlen, r4) => r4.length == dlen
          | none => false
        | none => false
      | none => false
    | _ => false

/-- Modelled from the spec: `gocid.Cast` returns the CID wrapping exactly the
input bytes when they are well-formed, and an error otherwise. -/
def gocidCast (data : List Nat) : Except DBErr Cid :=
  if castOk data then Except.ok ⟨data⟩ else Except.error DBErr.malformedCid

/-- Embeds `cidToBytes`: `cid.Bytes()` returns the canonical byte encoding
(the empty slice for `gocid.Undef`). -/
def cidToBytes (cid : Cid) : List Nat :=
  cid.bytes

/-- Embeds `bytesToCid`: zero-length input yields `gocid.Undef` with no
error; otherwise the result of `gocid.Cast`, whose error is propagated. -/
def bytesToCid (bytes : List Nat) : Except DBErr Cid :=
  if bytes.length == 0 then Except.ok Cid.undef
  else
    match gocidCast bytes with
    | Except.error err => Except.error err
    | Except.ok cid => Except.ok cid

/-- Embeds `bytesToCids`: decode each element in order, aborting with the
first element's error and returning no partial list. -/
def bytesToCids : List (List Nat) → Except DBErr (List Cid)
  | [] => Except.ok []
  | bytes :: rest =>
    match bytesToCid bytes with
    | Except.error err => Except.error err
    | Except.ok cid =>
      match bytesToCids rest with
      | Except.error err => Except.error err
      | Except.ok cids => Except.ok (cid :: cids)

/-- Embeds `cidsToBytes`: encode each element in order (the Go loop appends
`cidToBytes cid` for each cid). -/
def cidsToBytes (cids : List Cid) : List (List Nat) :=
  cids.map cidToBytes

/-- The scalar decode with the error case collapsed to the sentinel; used
only to state that the batch decode applies the scalar decode element-wise. -/
def bytesToCidForce (bytes : List Nat) : Cid :=
  match bytesToCid bytes with
  | Except.ok cid => cid
  | Except.error _ => Cid.undef

-- ENTITY ROW TYPES (field shapes from the spec's data model, §3)

/-- A user row (only the fields the claims touch). -/
structure User where
  id : Nat
  username : String
  deriving DecidableEq

/-- A deduplicated block row: `{id, cid, size}`. -/
structure Object where
  id : Nat
  cid : List Nat
  size : Nat
  deriving DecidableEq

/-- A reference row joining a Content item (`pin`) to an `Object`. -/
structure ObjRef where
  id : Nat
  object : Nat
  pin : Nat
  deriving DecidableEq

/-- A logical content row: `{id, cid, userID, active, aggregate,
aggregatedIn, createdAt}`; `aggregatedIn = 0` means not a member of any
aggregate (gorm uint column). -/
structure Content where
  id : Nat
  cid : List Nat
  userID : Nat
  active : Bool
  aggregate : Bool
  aggregatedIn : Nat
  createdAt : Nat
  deriving DecidableEq

/-- A storage-deal row keyed by its Content id (`contentDeal`). -/
structure contentDeal where
  id : Nat
  content : Nat
  deriving DecidableEq

/-- A provider/miner registry row (`storageMiner`). -/
structure storageMiner where
  address : String
  deriving DecidableEq

-- USERS QUERY

/-- Embeds `UsersQuery.Count`: on an engine error Go returns `(0, err)`,
otherwise the number of rows matching the accumulated filter. -/
def UsersQuery.Count (rows : List User) (flt : User → Bool)
    (engineErr : Option DBErr) : Nat × Option DBErr :=
  match engineErr with
  | some e => (0, some e)
  | none => ((rows.filter flt).length, none)

/-- Embeds `UsersQuery.Exists`: calls `Count`, returns `(false, err)` on its
error, else `count > 0` with no error. -/
def UsersQuery.Exists (rows : List User) (flt : User → Bool)
    (engineErr : Option DBErr) : Bool × Option DBErr :=
  match UsersQuery.Count rows flt engineErr with
  | (_, some e) => (false, some e)
  | (count, none) => (decide (count > 0), none)

/-- Embeds `UsersQuery.ExpectDelete`: run the delete; propagate an engine
error; return `gorm.ErrRecordNotFound` when zero rows were affected, and no
error otherwise.  Result is the remaining rows and the returned error. -/
def UsersQuery.ExpectDelete (rows : List User) (flt : User → Bool)
    (engineErr : Option DBErr) : List User × Option DBErr :=
  match engineErr with
  | some e => (rows, some e)
  | none =>
    let remaining := rows.filter (fun u => !(flt u))
    if (rows.filter flt).length == 0 then (remaining, some DBErr.recordNotFound)
    else (remaining, none)

-- CONTENTS QUERY

/-- Embeds `ContentsQuery.WithAggregatedIn`: adds the conjunctive filter
`aggregated_in = contentID`. -/
def ContentsQuery.WithAggregatedIn (rows : List Content) (contentID : Nat) :
    List Content :=
  rows.filter (fun c => c.aggregatedIn == contentID)

/-- Creation-time ascending order on Content rows. -/
def createdLE (a b : Content) : Prop := a.createdAt ≤ b.createdAt

/-- Creation-time descending order on Content rows. -/
def createdGE (a b : Content) : Prop := b.createdAt ≤ a.createdAt

instance : DecidableRel createdLE :=
  fun a b => Nat.decLe a.createdAt b.createdAt

instance : DecidableRel createdGE :=
  fun a b => Nat.decLe b.createdAt a.createdAt

instance : IsTotal Content createdLE :=
  ⟨fun a b => Nat.le_total a.createdAt b.createdAt⟩

instance : IsTrans Content createdLE :=
  ⟨fun _ _ _ h h2 => Nat.le_trans h h2⟩

/-- Embeds `ContentsQuery.OrderByCreationDate` as executed by a terminal
fetch: `ORDER BY created_at DESC` for `OrderDescending`, else
`ORDER BY created_at ASC`, modelled as a stable sort of the row set. -/
def ContentsQuery.OrderByCreationDate (order : DBSortOrder)
    (rows : List Content) : List Content :=
  match order with
  | DBSortOrder.descending => List.insertionSort createdGE rows
  | DBSortOrder.ascending => List.insertionSort createdLE rows

/-- Embeds `ContentsQuery.GetAll`.  The Go body is
`if err := q.DB.Find(&contents).Error; err != nil { return nil, nil }`:
on an engine error it returns the nil slice AND a nil error, discarding the
engine's error; otherwise the matching rows with no error. -/
def ContentsQuery.GetAll (rows : List Content) (engineErr : Option DBErr) :
    List Content × Option DBErr :=
  match engineErr with
  | some _ => ([], none)
  | none => (rows, none)

/-- Embeds `ContentsQuery.Delete`: `q.DB.Delete(&Content{}).Error` removes
every row matching the accumulated filter and returns only the engine error
(none here, the statement itself succeeding); no reference check is made. -/
def ContentsQuery.Delete (rows : List Content) (flt : Content → Bool) :
    List Content × Option DBErr :=
  (rows.filter (fun c => !(flt c)), none)

-- OBJECTS QUERY

/-- Embeds `ObjectsQuery.Count` (same shape as `UsersQuery.Count`). -/
def ObjectsQuery.Count (rows : List Object) (flt : Object → Bool)
    (engineErr : Option DBErr) : Nat × Option DBErr :=
  match engineErr with
  | some e => (0, some e)
  | none => ((rows.filter flt).length, none)

/-- Embeds `ObjectsQuery.Exists`: `count > 0`, with `(false, err)` on a
`Count` error. -/
def ObjectsQuery.Exists (rows : List Object) (flt : Object → Bool)
    (engineErr : Option DBErr) : Bool × Option DBErr :=
  match ObjectsQuery.Count rows flt engineErr with
  | (_, some e) => (false, some e)
  | (count, none) => (decide (count > 0), none)

/-- Number of ObjRef rows whose `object` column names the given object id
(the correlated subquery `count(1) ... where object = objects.id`). -/
def objRefCount (refs : List ObjRef) (objID : Nat) : Nat :=
  (refs.filter (fun r => r.object == objID)).length

/-- Embeds `ObjectsQuery.DeleteUnreferenced`: the single conditional SQL
statement `DELETE FROM objects WHERE (subquery ref count) = 0 AND id IN ids`.
Returns the surviving object rows and the Go return value, which is only the
statement's error (`nil` here, the statement itself succeeding). -/
def ObjectsQuery.DeleteUnreferenced (objects : List Object)
    (refs : List ObjRef) (ids : List Nat) : List Object × Option DBErr :=
  (objects.filter (fun o => !(objRefCount refs o.id == 0 && ids.contains o.id)),
   none)

-- OBJ REFS QUERY

/-- Embeds `ObjRefsQuery.Delete`: removes every ObjRef row matching the
accumulated filter, returning only the engine error (none here). -/
def ObjRefsQuery.Delete (refs : List ObjRef) (flt : ObjRef → Bool) :
    List ObjRef × Option DBErr :=
  (refs.filter (fun r => !(flt r)), none)

-- DEALS QUERY

/-- Embeds `DealsQuery.GetAll`: `return nil, err` on an engine error,
otherwise the matching rows with no error. -/
def DealsQuery.GetAll (rows : List contentDeal) (engineErr : Option DBErr) :
    List contentDeal × Option DBErr :=
  match engineErr with
  | some e => ([], some e)
  | none => (rows, none)

-- BOOTSTRAP SEEDING (from NewDBMgr)

/-- Embeds the seeding step of `NewDBMgr`: count the `storageMiner` rows and,
only when the count is zero, insert one row per entry of the default miner
list.  Modelled from the spec: the `defaultMiners` list itself is defined
outside `dbmgr.go` and is passed here as a parameter. -/
def newDBMgrSeed (miners : List storageMiner) (defaultMiners : List String) :
    List storageMiner :=
  if miners.length == 0 then
    miners ++ defaultMiners.map (fun addr => ⟨addr⟩)
  else miners

-- HELPER LEMMAS (shared across the claim theorems below)

/-- The empty byte list is not a well-formed CID encoding. -/
theorem castOk_nil : castOk [] = false := rfl

/-- Scalar decode on a well-formed encoding returns the CID wrapping the
input bytes. -/
theorem bytesToCid_ok_of_castOk (bs : List Nat) (h : castOk bs = true) :
    bytesToCid bs = Except.ok ⟨bs⟩ := by
  have hne : bs ≠ [] := by
    intro hnil
    rw [hnil, castOk_nil] at h
    exact Bool.false_ne_true h
  have hlen : (bs.length == 0) = false := by
    simp [List.length_eq_zero, hne]
  simp [bytesToCid, gocidCast, h, hlen]

/-- Scalar decode on a malformed non-empty input returns the
`MalformedIdentifier` error. -/
theorem bytesToCid_error_of_not_castOk (bs : List Nat) (hne : bs ≠ [])
    (h : castOk bs = false) :
    bytesToCid bs = Except.error DBErr.malformedCid := by
  have hlen : (bs.length == 0) = false := by
    simp [List.length_eq_zero, hne]
  simp [bytesToCid, gocidCast, h, hlen]

/-- The only error the scalar decode can produce is `MalformedIdentifier`. -/
theorem bytesToCid_error_eq (bs : List Nat) (e : DBErr)
    (h : bytesToCid bs = Except.error e) : e = DBErr.malformedCid := by
  by_cases h0 : (bs.length == 0) = true
  · simp [bytesToCid, h0] at h
  · by_cases hc : castOk bs = true
    · simp [bytesToCid, gocidCast, h0, hc] at h
    · simp [bytesToCid, gocidCast, h0, hc] at h
      exact h.symm

/-- Batch decode succeeds element-wise when every element decodes. -/
theorem bytesToCids_ok_of_all_ok (l : List (List Nat))
    (hl : ∀ bs ∈ l, bs = [] ∨ castOk bs = true) :
    bytesToCids l = Except.ok (l.map bytesToCidForce) := by
  induction l with
  | nil => rfl
  | cons b rest ih =>
    have hb : b = [] ∨ castOk b = true := hl b (List.mem_cons_self b rest)
    have hok : bytesToCid b = Except.ok (bytesToCidForce b) := by
      rcases hb with h | h
      · subst h; rfl
      · rw [bytesToCid_ok_of_castOk b h]
        rw [bytesToCidForce, bytesToCid_ok_of_castOk b h]
    have ihh := ih (fun bs hbs => hl bs (List.mem_cons_of_mem b hbs))
    simp [bytesToCids, hok, ihh]

/-- Batch decode aborts with the malformed-identifier error as soon as any
element is malformed, returning no partial list. -/
theorem bytesToCids_error_of_bad (l : List (List Nat))
    (h : ∃ bs ∈ l, bs ≠ [] ∧ castOk bs = false) :
    bytesToCids l = Except.error DBErr.malformedCid := by
  induction l with
  | nil => simp at h
  | cons b rest ih =>
    rcases h with ⟨bs, hmem, hne, hbad⟩
    rcases List.mem_cons.mp hmem with rfl | hb
    · simp [bytesToCids, bytesToCid_error_of_not_castOk bs hne hbad]
    · cases hc : bytesToCid b with
      | error e =>
        rw [bytesToCid_error_eq b e hc] at hc
        simp [bytesToCids, hc]
      | ok c =>
        simp [bytesToCids, hc, ih ⟨bs, hb, hne, hbad⟩]

-- CLAIM THEOREMS

/-- C1 (amended): `ObjectsQuery.DeleteUnreferenced` deletes exactly those
candidate Objects with zero ObjRefs (an Object survives iff it was present
and is not an unreferenced candidate), and returns no error — in particular
it does not error when zero candidates qualify; it returns only an error
value, not a count. -/
theorem deleteUnreferenced_semantics (objects : List Object)
    (refs : List ObjRef) (ids : List Nat) :
    (ObjectsQuery.DeleteUnreferenced objects refs ids).2 = none ∧
    ∀ o : Object, o ∈ (ObjectsQuery.DeleteUnreferenced objects refs ids).1 ↔
      (o ∈ objects ∧ ¬(ids.contains o.id = true ∧ objRefCount refs o.id = 0)) := by
  refine ⟨rfl, ?_⟩
  intro o
  have hb : (!(objRefCount refs o.id == 0 && ids.contains o.id)) = true ↔
      ¬(ids.contains o.id = true ∧ objRefCount refs o.id = 0) := by
    by_cases h0 : objRefCount refs o.id = 0 <;>
      cases hcont : ids.contains o.id <;> simp [h0, hcont]
  simp only [ObjectsQuery.DeleteUnreferenced, List.mem_filter]
  rw [hb]

/-- C1 (counterexample to the claim as stated): the Go function's only
return value besides the mutated table is its error; on a state where one
object is deleted and a state where zero objects are deleted that return
value is identical, so `DeleteUnreferenced` cannot return the count actually
deleted. -/
theorem deleteUnreferenced_returns_no_count :
    ((ObjectsQuery.DeleteUnreferenced [⟨1, [], 4⟩] [] [1]).1.length = 0 ∧
     (ObjectsQuery.DeleteUnreferenced [⟨1, [], 4⟩] [⟨9, 1, 2⟩] [1]).1.length = 1) ∧
    (ObjectsQuery.DeleteUnreferenced [⟨1, [], 4⟩] [] [1]).2 =
      (ObjectsQuery.DeleteUnreferenced [⟨1, [], 4⟩] [⟨9, 1, 2⟩] [1]).2 := by
  decide

/-- C2: decoding the encoding of any well-formed identifier returns the
identifier unchanged; decoding zero-length bytes returns the undefined
sentinel without error; decoding malformed non-empty bytes fails with the
malformed-identifier error. -/
theorem bytesToCid_roundtrip (x : Cid) (h : castOk x.bytes = true) :
    bytesToCid (cidToBytes x) = Except.ok x ∧
    bytesToCid [] = Except.ok Cid.undef ∧
    ∀ bs : List Nat, bs ≠ [] → castOk bs = false →
      bytesToCid bs = Except.error DBErr.malformedCid := by
  refine ⟨?_, rfl, ?_⟩
  · show bytesToCid x.bytes = Except.ok x
    rw [bytesToCid_ok_of_castOk x.bytes h]
  · intro bs hne hbad
    exact bytesToCid_error_of_not_castOk bs hne hbad

/-- C2 witness: a concrete CIDv0 identifier round-trips, and the concrete
malformed input `[1]` fails to decode. -/
theorem bytesToCid_roundtrip_witness :
    bytesToCid (cidToBytes ⟨18 :: 32 :: List.replicate 32 7⟩) =
      Except.ok ⟨18 :: 32 :: List.replicate 32 7⟩ ∧
    bytesToCid [1] = Except.error DBErr.malformedCid :=
  ⟨(bytesToCid_roundtrip ⟨18 :: 32 :: List.replicate 32 7⟩ (by decide)).1,
   (bytesToCid_roundtrip ⟨18 :: 32 :: List.replicate 32 7⟩ (by decide)).2.2
     [1] (by decide) (by decide)⟩

/-- C3 (code evaluated at the failing input): `ContentsQuery.GetAll` returns
the nil slice with a nil error when the engine reports an error, silently
discarding it, while `DealsQuery.GetAll` propagates the same engine error;
both return an empty sequence without error when zero rows match. -/
theorem contentsGetAll_swallows_engine_error :
    ContentsQuery.GetAll [] (some (DBErr.engine "disk failure")) = ([], none) ∧
    ContentsQuery.GetAll [] none = ([], none) ∧
    DealsQuery.GetAll [] (some (DBErr.engine "disk failure")) =
      ([], some (DBErr.engine "disk failure")) ∧
    DealsQuery.GetAll [] none = ([], none) :=
  ⟨rfl, rfl, rfl, rfl⟩

/-- C4 (amended): `ContentsQuery.Delete` removes every matching Content row
and returns no error, with no check of Deals or ObjRefs (no ContentInUse
guard exists in the code); `ObjRefsQuery.Delete` likewise unconditionally
removes the matching ObjRef rows, which is the caller's tool for clearing
references before a hard delete. -/
theorem contentsDelete_semantics (rows : List Content) (flt : Content → Bool)
    (refs : List ObjRef) (fltR : ObjRef → Bool) :
    (ContentsQuery.Delete rows flt).2 = none ∧
    (∀ c, c ∈ (ContentsQuery.Delete rows flt).1 ↔ c ∈ rows ∧ flt c = false) ∧
    (ObjRefsQuery.Delete refs fltR).2 = none ∧
    (∀ r, r ∈ (ObjRefsQuery.Delete refs fltR).1 ↔ r ∈ refs ∧ fltR r = false) := by
  refine ⟨rfl, ?_, rfl, ?_⟩
  · intro c
    simp [ContentsQuery.Delete, List.mem_filter]
  · intro r
    simp [ObjRefsQuery.Delete, List.mem_filter]

/-- C4 (counterexample to the claim as stated): with one deal row still
referencing Content id 1, `ContentsQuery.Delete` nevertheless removes the
Content row and returns no error — it does not fail with ContentInUse. -/
theorem contentsDelete_ignores_referencing_deal :
    (([⟨5, 1⟩] : List contentDeal).filter (fun d => d.content == 1)).length = 1 ∧
    ContentsQuery.Delete [⟨1, [], 2, true, false, 0, 0⟩] (fun c => c.id == 1) =
      ([], none) := by
  decide

/-- C5: batch decode applies the scalar decode element-wise preserving order
and length when every element is well-formed, fails atomically with the
malformed-identifier error (no partial results) when any element is
malformed, and batch encode is the element-wise scalar encode preserving
order and length. -/
theorem batch_codec_elementwise (l : List (List Nat)) (cs : List Cid) :
    ((∀ bs ∈ l, bs = [] ∨ castOk bs = true) →
      bytesToCids l = Except.ok (l.map bytesToCidForce) ∧
      (l.map bytesToCidForce).length = l.length) ∧
    ((∃ bs ∈ l, bs ≠ [] ∧ castOk bs = false) →
      bytesToCids l = Except.error DBErr.malformedCid) ∧
    cidsToBytes cs = cs.map cidToBytes ∧
    (cidsToBytes cs).length = cs.length := by
  refine ⟨?_, ?_, rfl, ?_⟩
  · intro hl
    exact ⟨bytesToCids_ok_of_all_ok l hl, List.length_map _ _⟩
  · intro h
    exact bytesToCids_error_of_bad l h
  · simp [cidsToBytes]

/-- C5 witness: a concrete well-formed batch decodes element-wise, a batch
containing the malformed element `[1]` fails atomically, and a concrete
batch encode is the element-wise map. -/
theorem batch_codec_elementwise_witness :
    (bytesToCids [[], 18 :: 32 :: List.replicate 32 7] =
      Except.ok ([[], 18 :: 32 :: List.replicate 32 7].map bytesToCidForce) ∧
     ([[], 18 :: 32 :: List.replicate 32 7].map bytesToCidForce).length =
      ([[], 18 :: 32 :: List.replicate 32 7] : List (List Nat)).length) ∧
    bytesToCids [[], [1]] = Except.error DBErr.malformedCid ∧
    cidsToBytes [Cid.undef] = [Cid.undef].map cidToBytes :=
  ⟨(batch_codec_elementwise [[], 18 :: 32 :: List.replicate 32 7] []).1
     (by decide),
   (batch_codec_elementwise [[], [1]] []).2.1 ⟨[1], by decide, by decide, by decide⟩,
   (batch_codec_elementwise [] [Cid.undef]).2.2.1⟩

/-- C6: with the underlying delete statement succeeding, `ExpectDelete`
returns `recordNotFound` exactly when zero rows matched the filter, and
returns no error exactly when one or more rows were deleted. -/
theorem expectDelete_notFound_iff (rows : List User) (flt : User → Bool) :
    ((UsersQuery.ExpectDelete rows flt none).2 = some DBErr.recordNotFound ↔
      (rows.filter flt).length = 0) ∧
    ((UsersQuery.ExpectDelete rows flt none).2 = none ↔
      0 < (rows.filter flt).length) := by
  by_cases h : (rows.filter flt).length = 0 <;>
    simp [UsersQuery.ExpectDelete, h, Nat.pos_iff_ne_zero]

/-- C7: for the Users and Objects queries, `Exists` returns true exactly
when `Count` on the same query state is strictly positive, and returns false
together with the error when `Count` reports an engine error. -/
theorem exists_iff_count_pos (rowsU : List User) (fltU : User → Bool)
    (rowsO : List Object) (fltO : Object → Bool) (e : DBErr) :
    ((UsersQuery.Exists rowsU fltU none).1 = true ↔
      0 < (UsersQuery.Count rowsU fltU none).1) ∧
    UsersQuery.Exists rowsU fltU (some e) = (false, some e) ∧
    ((ObjectsQuery.Exists rowsO fltO none).1 = true ↔
      0 < (ObjectsQuery.Count rowsO fltO none).1) ∧
    ObjectsQuery.Exists rowsO fltO (some e) = (false, some e) := by
  refine ⟨?_, rfl, ?_, rfl⟩ <;>
    simp [UsersQuery.Exists, UsersQuery.Count,
      ObjectsQuery.Exists, ObjectsQuery.Count]

/-- C8: the bootstrap seeding step fills an empty miner registry with
exactly the default list (count equals its length), performs no insertion on
a non-empty registry, and a second run after seeding a non-empty default
list leaves the registry unchanged. -/
theorem bootstrap_seed_registry (miners : List storageMiner)
    (defaultMiners : List String) :
    (miners = [] →
      (newDBMgrSeed miners defaultMiners).length = defaultMiners.length) ∧
    (miners ≠ [] → newDBMgrSeed miners defaultMiners = miners) ∧
    (defaultMiners ≠ [] →
      newDBMgrSeed (newDBMgrSeed [] defaultMiners) defaultMiners =
        newDBMgrSeed [] defaultMiners) := by
  refine ⟨?_, ?_, ?_⟩
  · rintro rfl
    simp [newDBMgrSeed]
  · intro h
    have hlen : (miners.length == 0) = false := by
      simp [List.length_eq_zero, h]
    simp [newDBMgrSeed, hlen]
  · intro h
    have h1 : newDBMgrSeed [] defaultMiners =
        defaultMiners.map (fun addr => (⟨addr⟩ : storageMiner)) := by
      simp [newDBMgrSeed]
    rw [h1]
    have h2 : ((defaultMiners.map
        (fun addr => (⟨addr⟩ : storageMiner))).length == 0) = false := by
      simp [List.length_eq_zero, h]
    simp [newDBMgrSeed, h2]

/-- C8 witness: seeding the empty registry with a one-element default list
gives count 1; a run against a non-empty registry changes nothing; a second
bootstrap run after seeding changes nothing. -/
theorem bootstrap_seed_registry_witness :
    (newDBMgrSeed [] ["f01234"]).length = 1 ∧
    newDBMgrSeed [⟨"f0999"⟩] ["f01234"] = [⟨"f0999"⟩] ∧
    newDBMgrSeed (newDBMgrSeed [] ["f01234"]) ["f01234"] =
      newDBMgrSeed [] ["f01234"] :=
  ⟨(bootstrap_seed_registry [] ["f01234"]).1 rfl,
   (bootstrap_seed_registry [⟨"f0999"⟩] ["f01234"]).2.1 (by simp),
   (bootstrap_seed_registry [] ["f01234"]).2.2 (by simp)⟩

/-- C9: when B and C are exactly the rows whose `aggregatedIn` equals the
aggregate's id, the children query with ascending creation-time order
returns exactly the set containing B and C and is sorted by creation time
ascending. -/
theorem children_of_aggregate_ordered (rows : List Content) (aggID : Nat)
    (B C : Content) (hB : B ∈ rows) (hC : C ∈ rows)
    (hBa : B.aggregatedIn = aggID) (hCa : C.aggregatedIn = aggID)
    (honly : ∀ c ∈ rows, c.aggregatedIn = aggID → c = B ∨ c = C) :
    (∀ c, c ∈ ContentsQuery.OrderByCreationDate DBSortOrder.ascending
        (ContentsQuery.WithAggregatedIn rows aggID) ↔ (c = B ∨ c = C)) ∧
    List.Sorted createdLE (ContentsQuery.OrderByCreationDate
      DBSortOrder.ascending (ContentsQuery.WithAggregatedIn rows aggID)) := by
  constructor
  · intro c
    show c ∈ List.insertionSort createdLE
        (ContentsQuery.WithAggregatedIn rows aggID) ↔ _
    rw [(List.perm_insertionSort createdLE
      (ContentsQuery.WithAggregatedIn rows aggID)).mem_iff]
    simp only [ContentsQuery.WithAggregatedIn, List.mem_filter, beq_iff_eq]
    constructor
    · rintro ⟨hm, ha⟩
      exact honly c hm ha
    · rintro (rfl | rfl)
      · exact ⟨hB, hBa⟩
      · exact ⟨hC, hCa⟩
  · exact List.sorted_insertionSort createdLE
      (ContentsQuery.WithAggregatedIn rows aggID)

/-- Example aggregate row A (id 1) for the C9 witness. -/
def contentAggA : Content := ⟨1, [], 7, true, true, 0, 10⟩

/-- Example child row B of aggregate 1, created at time 20. -/
def contentChildB : Content := ⟨2, [], 7, true, false, 1, 20⟩

/-- Example child row C of aggregate 1, created at time 30. -/
def contentChildC : Content := ⟨3, [], 7, true, false, 1, 30⟩

/-- Example unrelated row D, not a member of any aggregate. -/
def contentOtherD : Content := ⟨4, [], 7, true, false, 0, 40⟩

/-- Example contents table for the C9 witness. -/
def contentRowsEx : List Content :=
  [contentAggA, contentChildB, contentChildC, contentOtherD]

/-- C9 witness: on the concrete table, the children-of-aggregate-1 query
returns exactly B and C, sorted ascending by creation time. -/
theorem children_of_aggregate_ordered_witness :
    (∀ c, c ∈ ContentsQuery.OrderByCreationDate DBSortOrder.ascending
        (ContentsQuery.WithAggregatedIn contentRowsEx 1) ↔
      (c = contentChildB ∨ c = contentChildC)) ∧
    List.Sorted createdLE (ContentsQuery.OrderByCreationDate
      DBSortOrder.ascending (ContentsQuery.WithAggregatedIn contentRowsEx 1)) :=
  children_of_aggregate_ordered contentRowsEx 1 contentChildB contentChildC
    (by decide) (by decide) (by decide) (by decide) (by decide)

/-- C10: encoding the undefined identifier yields the empty byte sequence,
decoding that yields the undefined sentinel again without error, the forced
scalar decode maps empty bytes to the sentinel, and the batch decode
succeeds on any list whose elements are empty or well-formed, applying the
scalar decode element-wise. -/
theorem undef_identifier_roundtrip :
    cidToBytes Cid.undef = [] ∧
    bytesToCid (cidToBytes Cid.undef) = Except.ok Cid.undef ∧
    bytesToCidForce [] = Cid.undef ∧
    ∀ l : List (List Nat), (∀ bs ∈ l, bs = [] ∨ castOk bs = true) →
      bytesToCids l = Except.ok (l.map bytesToCidForce) :=
  ⟨rfl, rfl, rfl, bytesToCids_ok_of_all_ok⟩

/-- C10 witness: a batch holding two empty-byte elements decodes without
error to two sentinels. -/
theorem undef_identifier_roundtrip_witness :
    bytesToCids [[], []] = Except.ok ([[], []].map bytesToCidForce) ∧
    ([[], []].map bytesToCidForce) = [Cid.undef, Cid.undef] :=
  ⟨undef_identifier_roundtrip.2.2.2 [[], []] (by decide), rfl⟩
